import Mathlib

/-!
Verification of the wlanalyze core (src/waylanddebug.h, src/waylanddebug.cpp)
against its natural-language specification.

Shallow embedding conventions:
* Qt strings become `String`, `uint` / `quint64` become `Nat` (all values in
  the traces are far below the wrap-around points; `toUInt` / `toULongLong`
  on pure digit captures are plain decimal reads), `qint64` differences
  become `Int`.
* `QList` becomes `List`; the `QHash`es become association lists (only
  lookup / insert / in-place update are used by the code, so ordering of the
  hash buckets is irrelevant).
* Distinct heap-allocated `Message` objects are modelled as list elements;
  pointer distinctness is expressed by `Nodup` hypotheses where it matters.
* Throwing `Exception` becomes returning `Except RegErr`.
-/

namespace WlanAlz

/-- Direction enum from waylanddebug.h (values Any=0, FromCompositor=1,
ToCompositor=2, Unknown=3; the numeric order is what `operator<` compares). -/
inductive Direction where
  | Any
  | FromCompositor
  | ToCompositor
  | Unknown
deriving DecidableEq, Repr

/-- Numeric value of the enum, used by the `m_direction < m_direction` sort
comparator. -/
def Direction.toNat : Direction → Nat
  | .Any => 0
  | .FromCompositor => 1
  | .ToCompositor => 2
  | .Unknown => 3

/-- ObjectRef from waylanddebug.h: `{m_class, m_instance, m_generation}`. -/
structure ObjectRef where
  m_class : String
  m_instance : Nat
  m_generation : Nat
deriving DecidableEq, Repr

/-- Default-constructed ObjectRef (`ObjectRef() = default`): empty class,
instance 0, generation 0. -/
def ObjectRef.null : ObjectRef := ⟨"", 0, 0⟩

/-- Message from waylanddebug.h. -/
structure Message where
  m_direction : Direction
  m_connection : String
  m_queue : String
  m_time : Nat
  m_object : ObjectRef
  m_method : String
  m_arguments : List String
  m_created : List ObjectRef
  m_destroyed : List ObjectRef
deriving DecidableEq, Repr

/-- Registry-level failures; the C++ code throws a generic `Exception` with a
formatted message in exactly these three situations (resolve lines 289-317,
create lines 319-338, destroy lines 340-348 of waylanddebug.cpp). -/
inductive RegErr where
  | unknownInstance (class_ : String) (inst : Nat)
  | duplicateInstance (class_ : String) (inst : Nat)
  | wrongClass (foundClass : String) (inst : Nat) (wantedClass : String)
deriving DecidableEq, Repr

/-- ObjectRegistry from waylanddebug.h: live objects, per-(class,instance)
generation counters, and the graveyard of destroyed objects. -/
structure ObjectRegistry where
  m_objects : List ObjectRef
  m_generations : List ((String × Nat) × Nat)
  m_graveyard : List ObjectRef
deriving DecidableEq, Repr

/-- The default-constructed (empty) registry. -/
def ObjectRegistry.empty : ObjectRegistry := ⟨[], [], []⟩

/-- `ObjectRegistry::findInstance`: linear scan of `m_objects` for the first
entry with the given instance id; C++ returns the index or -1, modelled as
`Option`. -/
def ObjectRegistry.findInstance (r : ObjectRegistry) (inst : Nat) : Option Nat :=
  r.m_objects.findIdx? (fun o => o.m_instance == inst)

/-- Lookup in the `m_generations` hash (`QHash<std::pair<QString,uint>, uint>`). -/
def ObjectRegistry.lookupGen (r : ObjectRegistry) (class_ : String) (inst : Nat) : Option Nat :=
  (r.m_generations.find? (fun e => e.1.1 == class_ && e.1.2 == inst)).map (·.2)

/-- In-place update of the generation hash entry for a key (the
`++genIt.value()` path of `create`). -/
def setGen (gens : List ((String × Nat) × Nat)) (class_ : String) (inst : Nat) (v : Nat) :
    List ((String × Nat) × Nat) :=
  gens.map (fun e => if e.1.1 == class_ && e.1.2 == inst then (e.1, v) else e)

/-- `ObjectRegistry::resolve` (waylanddebug.cpp lines 289-317): live lookup
first; when not live and a class was supplied, scan the graveyard from the
most recently destroyed entry backwards for a matching instance AND class;
otherwise fail; finally verify the class of the handle found live. -/
def ObjectRegistry.resolve (r : ObjectRegistry) (class_ : String) (inst : Nat) :
    Except RegErr ObjectRef :=
  match r.m_objects.find? (fun o => o.m_instance == inst) with
  | none =>
    if class_ ≠ "" then
      match r.m_graveyard.reverse.find? (fun o => o.m_instance == inst && o.m_class == class_) with
      | some o => .ok o
      | none => .error (.unknownInstance class_ inst)
    else
      .error (.unknownInstance class_ inst)
  | some o =>
    if class_ ≠ "" && o.m_class != class_ then
      .error (.wrongClass o.m_class inst class_)
    else
      .ok o

/-- `ObjectRegistry::create` (waylanddebug.cpp lines 319-338): fails when the
instance is already live; otherwise generation is 1 for a fresh
(class,instance) key and the incremented counter for a reused key; the new
handle is appended to `m_objects`. -/
def ObjectRegistry.create (r : ObjectRegistry) (class_ : String) (inst : Nat) :
    Except RegErr (ObjectRef × ObjectRegistry) :=
  match r.m_objects.find? (fun o => o.m_instance == inst) with
  | some o => .error (.duplicateInstance o.m_class inst)
  | none =>
    match r.lookupGen class_ inst with
    | some g =>
      let o : ObjectRef := ⟨class_, inst, g + 1⟩
      .ok (o, { r with m_objects := r.m_objects ++ [o],
                       m_generations := setGen r.m_generations class_ inst (g + 1) })
    | none =>
      let o : ObjectRef := ⟨class_, inst, 1⟩
      .ok (o, { r with m_objects := r.m_objects ++ [o],
                       m_generations := ((class_, inst), 1) :: r.m_generations })

/-- Remove the first live entry with the given instance id, returning it and
the remaining list (`findInstance` followed by `m_objects.takeAt(idx)`). -/
def takeFirstInstance (inst : Nat) : List ObjectRef → Option (ObjectRef × List ObjectRef)
  | [] => none
  | o :: rest =>
    if o.m_instance == inst then some (o, rest)
    else match takeFirstInstance inst rest with
      | none => none
      | some (x, rest_) => some (x, o :: rest_)

/-- `ObjectRegistry::destroy` (waylanddebug.cpp lines 340-348): removes the
live handle and appends it to the graveyard. -/
def ObjectRegistry.destroy (r : ObjectRegistry) (inst : Nat) :
    Except RegErr (ObjectRef × ObjectRegistry) :=
  match takeFirstInstance inst r.m_objects with
  | none => .error (.unknownInstance "" inst)
  | some (o, rest) =>
    .ok (o, { r with m_objects := rest, m_graveyard := r.m_graveyard ++ [o] })

/-- `ObjectRegistry::destroyIfExists` (waylanddebug.cpp lines 350-356): removes
the live handle when present (note: it is NOT appended to the graveyard) and
returns a default-constructed ObjectRef otherwise; it never fails. -/
def ObjectRegistry.destroyIfExists (r : ObjectRegistry) (inst : Nat) :
    ObjectRef × ObjectRegistry :=
  match takeFirstInstance inst r.m_objects with
  | some (o, rest) => (o, { r with m_objects := rest })
  | none => (ObjectRef.null, r)

/-- Filter from waylanddebug.h: the match criteria record. `QStringList` /
`QList<uint>` value sets become `List`s; an empty list encodes "criterion not
set". -/
structure Filter where
  m_directionMatch : Direction
  m_timeMin : Nat
  m_timeMax : Nat
  m_connectionMatch : List String
  m_queueMatch : List String
  m_classMatch : List String
  m_instanceMatch : List Nat
  m_methodMatch : List String
  m_argumentMatch : List String
  m_destroyClassMatch : List String
  m_createClassMatch : List String
deriving DecidableEq, Repr

/-- `Filter::match` (waylanddebug.cpp lines 465-533) for a non-null message:
the chain of early-return checks, one per criterion, in source order.
Note line 501: `m_argumentMatch.contains(arg)` is QStringList membership of
the whole argument string, i.e. exact equality. -/
def Filter.matchMsg (f : Filter) (m : Message) : Bool :=
  if (f.m_directionMatch = .FromCompositor ∨ f.m_directionMatch = .ToCompositor)
      ∧ f.m_directionMatch ≠ m.m_direction then false
  else if (f.m_timeMin ≠ 0 ∨ f.m_timeMax ≠ 0)
      ∧ ((f.m_timeMin ≠ 0 ∧ m.m_time < f.m_timeMin) ∨ (f.m_timeMax ≠ 0 ∧ m.m_time > f.m_timeMax)) then false
  else if f.m_connectionMatch ≠ [] ∧ m.m_connection ∉ f.m_connectionMatch then false
  else if f.m_queueMatch ≠ [] ∧ m.m_queue ∉ f.m_queueMatch then false
  else if f.m_classMatch ≠ [] ∧ m.m_object.m_class ∉ f.m_classMatch then false
  else if f.m_instanceMatch ≠ [] ∧ m.m_object.m_instance ∉ f.m_instanceMatch then false
  else if f.m_methodMatch ≠ [] ∧ m.m_method ∉ f.m_methodMatch then false
  else if f.m_argumentMatch ≠ [] ∧ ¬ ∃ a ∈ m.m_arguments, a ∈ f.m_argumentMatch then false
  else if f.m_createClassMatch ≠ [] ∧ ¬ ∃ o ∈ m.m_created, o.m_class ∈ f.m_createClassMatch then false
  else if f.m_destroyClassMatch ≠ [] ∧ ¬ ∃ o ∈ m.m_destroyed, o.m_class ∈ f.m_destroyClassMatch then false
  else true

/-- `Filter::isEmpty` (waylanddebug.cpp lines 535-548). -/
def Filter.isEmptyF (f : Filter) : Bool :=
  decide (f.m_directionMatch = .Any)
  && (f.m_timeMin == 0) && (f.m_timeMax == 0)
  && f.m_connectionMatch.isEmpty && f.m_queueMatch.isEmpty
  && f.m_classMatch.isEmpty && f.m_instanceMatch.isEmpty
  && f.m_methodMatch.isEmpty && f.m_argumentMatch.isEmpty
  && f.m_createClassMatch.isEmpty && f.m_destroyClassMatch.isEmpty

/-- Spec-side matching predicate, written from the spec's words for the
refinement claim about `Filter::match`: "a record matches iff it satisfies
every non-empty criterion in the spec; within a criterion holding a set of
acceptable values, the record need only match one member", with the time
bounds consulted independently and 0 meaning "no bound on that side". -/
def specMatch (f : Filter) (m : Message) : Prop :=
  ((f.m_directionMatch = .FromCompositor ∨ f.m_directionMatch = .ToCompositor) →
     m.m_direction = f.m_directionMatch)
  ∧ (f.m_timeMin ≠ 0 → f.m_timeMin ≤ m.m_time)
  ∧ (f.m_timeMax ≠ 0 → m.m_time ≤ f.m_timeMax)
  ∧ (f.m_connectionMatch ≠ [] → m.m_connection ∈ f.m_connectionMatch)
  ∧ (f.m_queueMatch ≠ [] → m.m_queue ∈ f.m_queueMatch)
  ∧ (f.m_classMatch ≠ [] → m.m_object.m_class ∈ f.m_classMatch)
  ∧ (f.m_instanceMatch ≠ [] → m.m_object.m_instance ∈ f.m_instanceMatch)
  ∧ (f.m_methodMatch ≠ [] → m.m_method ∈ f.m_methodMatch)
  ∧ (f.m_argumentMatch ≠ [] → ∃ a ∈ m.m_arguments, a ∈ f.m_argumentMatch)
  ∧ (f.m_createClassMatch ≠ [] → ∃ o ∈ m.m_created, o.m_class ∈ f.m_createClassMatch)
  ∧ (f.m_destroyClassMatch ≠ [] → ∃ o ∈ m.m_destroyed, o.m_class ∈ f.m_destroyClassMatch)

/-- A filter with only the argument criterion set (all other criteria empty /
disabled), used to state the argument-criterion claim in isolation. -/
def Filter.onlyArguments (S : List String) : Filter :=
  { m_directionMatch := .Any, m_timeMin := 0, m_timeMax := 0,
    m_connectionMatch := [], m_queueMatch := [], m_classMatch := [],
    m_instanceMatch := [], m_methodMatch := [], m_argumentMatch := S,
    m_destroyClassMatch := [], m_createClassMatch := [] }

/-- The all-empty filter (every criterion disabled). -/
def Filter.emptyFilter : Filter := Filter.onlyArguments []

/-- A message with the given argument list and arbitrary fixed other fields. -/
def msgWithArgs (args : List String) : Message :=
  { m_direction := .FromCompositor, m_connection := "", m_queue := "",
    m_time := 0, m_object := ⟨"wl_display", 1, 1⟩, m_method := "sync",
    m_arguments := args, m_created := [], m_destroyed := [] }

/-- Column enum of Model (waylanddebug.h lines 109-120). -/
inductive Column where
  | Time
  | Connection
  | Queue
  | Direction
  | Object
  | Method
  | Arguments
  | TimeDelta
deriving DecidableEq, Repr

/-- The defaulted `operator<=>` of ObjectRef as a strict less-than:
lexicographic on (m_class, m_instance, m_generation); QString comparison is
code-unit order, which agrees with Lean's `String` order on the ASCII class
names occurring in the logs. -/
def ObjectRef.lt (a b : ObjectRef) : Bool :=
  if a.m_class ≠ b.m_class then decide (a.m_class < b.m_class)
  else if a.m_instance ≠ b.m_instance then decide (a.m_instance < b.m_instance)
  else decide (a.m_generation < b.m_generation)

/-- `QList<QString>::operator<`: std::lexicographical_compare with QString
`<`. -/
def listStrLt : List String → List String → Bool
  | [], [] => false
  | [], _ :: _ => true
  | _ :: _, [] => false
  | a :: as, b :: bs => if a < b then true else if b < a then false else listStrLt as bs

/-- The comparator lambda of `Model::sort` (waylanddebug.cpp lines 40-58).
`order = true` is Qt::DescendingOrder, which swaps the two operands before
comparing (line 41-42). `td` abstracts the capture
`m_filteredTimeDeltas.at(m_filteredIndex.value(m))` used by the TimeDelta
column: the time delta of a message in the current filtered view. -/
def msgLt (td : Message → Int) (column : Column) (order : Bool) (a b : Message) : Bool :=
  let p := if order then (b, a) else (a, b)
  let m1 := p.1
  let m2 := p.2
  match column with
  | .Time => decide (m1.m_time < m2.m_time)
  | .Connection => decide (m1.m_connection < m2.m_connection)
  | .Queue => decide (m1.m_queue < m2.m_queue)
  | .Direction => decide (m1.m_direction.toNat < m2.m_direction.toNat)
  | .Object => ObjectRef.lt m1.m_object m2.m_object
  | .Method => decide (m1.m_method < m2.m_method)
  | .Arguments => listStrLt m1.m_arguments m2.m_arguments
  | .TimeDelta => decide (td m1 < td m2)

/-- The postcondition `std::sort(first, last, comp)` guarantees for its output
(and nothing more): a permutation of the input that is sorted with respect to
the strict weak ordering `lt` (no element is strictly less than a
predecessor). std::sort makes NO stability promise, so any list satisfying
this is an admissible result. -/
def IsCppSortResult {α : Type} (lt : α → α → Bool) (input output : List α) : Prop :=
  output.Perm input ∧ output.Pairwise (fun a b => lt b a = false)

/-- The re-filter step of `Model::sort` (waylanddebug.cpp lines 63-66): when a
filter is active, the new visible list keeps, in the new sorted order, exactly
those messages whose pointer is a key of the old `m_filteredIndex` — and the
keys of `m_filteredIndex` are exactly the elements of the previous
`m_filtered` list (rebuildFilteredIndex, lines 273-278).
`QtConcurrent::blockingFiltered` preserves relative order. -/
def sortRefilter (sorted_ oldFiltered : List Message) : List Message :=
  sorted_.filter (fun m => m ∈ oldFiltered)

/-- The delta-accumulating loop body of `Model::recalculateTimeDelta`
(waylanddebug.cpp lines 256-266): `last` carries the previous row's time. -/
def deltaGo (last : Int) : List Message → List Int
  | [] => []
  | m :: rest => ((m.m_time : Int) - last) :: deltaGo (m.m_time : Int) rest

/-- `m_filteredTimeDeltas` as computed by `Model::recalculateTimeDelta`
(waylanddebug.cpp lines 244-266): empty for an empty visible list; otherwise
`last` starts at the first row's time, so row 0 gets delta 0. -/
def recalcDeltas : List Message → List Int
  | [] => []
  | m :: rest => deltaGo (m.m_time : Int) (m :: rest)

/-- The comparator of the `std::sort` on line 269:
`std::abs(a) < std::abs(b)`. -/
def absLtInt (a b : Int) : Bool := decide (a.natAbs < b.natAbs)

/-- The multiset of absolute deltas in ascending order (the canonical value
determined by any sort of the deltas by absolute value). -/
def sortedAbs (visible : List Message) : List Nat :=
  ((recalcDeltas visible).map Int.natAbs).insertionSort (· ≤ ·)

/-- `QString::startsWith`, on the underlying character list (structural
recursion only, so concrete parses reduce inside the kernel). -/
def strStartsWith (s pre : String) : Bool := s.toList.take pre.toList.length == pre.toList

/-- `QString::endsWith`. -/
def strEndsWith (s post : String) : Bool :=
  s.toList.reverse.take post.toList.length == post.toList.reverse

/-- `QString::split(", ", Qt::KeepEmptyParts)` for the argument separator:
cut the string at every occurrence of the two-character separator `", "`,
scanning left to right; the empty string yields one empty part, like Qt. -/
def splitArgsAux : List Char → List Char → List String
  | [], acc => [String.mk acc.reverse]
  | ',' :: ' ' :: rest, acc => String.mk acc.reverse :: splitArgsAux rest []
  | ch :: rest, acc => splitArgsAux rest (ch :: acc)

/-- `m_arguments = match.captured("args").split(u", ")` (line 429). -/
def splitArgs (s : String) : List String := splitArgsAux s.toList []

/-- `\w` of the pattern: ASCII word characters as they occur in the logs. -/
def isWordChar (c : Char) : Bool := c.isAlphanum || c == '_'

/-- The named capture groups of the line pattern (waylanddebug.cpp line 412):
`^(<(?'connection'[^>]+)> )?\[ *(?'msec'\d+)\.(?'usec'\d+)\] +(\{(?'queue'[^\x7b]+)\})? *(?'send'->)? *(?'object'\w+)[#@](?'instance'\d+)\.(?'method'\w+)\((?'args'.*)\)$`.
Groups that did not participate are modelled by their `QString::captured`
value, the empty string (resp. `false` for the `send` marker). -/
structure Captures where
  connection : String
  msec : Nat
  usec : Nat
  queue : String
  send : Bool
  object : String
  instId : Nat
  method : String
  args : String
deriving DecidableEq, Repr

/-- Decimal value of a run of digit characters (the value
`QString::toULongLong` / `toUInt` computes on an all-digits capture; overflow
does not occur for the ids and times in real traces, so no wrap is
modelled). -/
def digitsToNat (cs : List Char) : Nat := cs.foldl (fun n c => n * 10 + (c.toNat - 48)) 0

/-- `QString::toUInt` on an arbitrary string: the whole string must be a
number (optional leading `+`, then digits), otherwise the result is 0. -/
def qToUInt (s : String) : Nat :=
  let cs := match s.toList with
    | '+' :: rest => rest
    | cs => cs
  if cs ≠ [] ∧ cs.all Char.isDigit then digitsToNat cs else 0

/-- The regular expression of `Parser::parseLine` (waylanddebug.cpp line 412)
as a deterministic maximal-munch parser. Every token class of the pattern is
disjoint from the literal that follows it, so greedy matching with
backtracking is equivalent to this deterministic parse; the only global
backtracking, `\(.*\)$`, makes `args` everything strictly between the first
`(` after the method name and the final `)` of the line. -/
def parseCaptures (line : String) : Option Captures :=
  let cs0 := line.toList
  -- optional "(<(?'connection'[^>]+)> )?"
  let step1 : Option (String × List Char) :=
    match cs0 with
    | '<' :: rest =>
      match rest.span (fun c => c ≠ '>') with
      | (conn, '>' :: ' ' :: rest2) => if conn.isEmpty then none else some (String.mk conn, rest2)
      | _ => none
    | _ => some ("", cs0)
  match step1 with
  | none => none
  | some (conn, cs1) =>
    match cs1 with
    | '[' :: cs2 =>
      let s2 := cs2.span (fun c => c == ' ')      -- "\[ *"
      let s3 := s2.2.span Char.isDigit            -- "(?'msec'\d+)"
      if s3.1.isEmpty then none else
      match s3.2 with
      | '.' :: cs3 =>
        let s4 := cs3.span Char.isDigit           -- "(?'usec'\d+)"
        if s4.1.isEmpty then none else
        match s4.2 with
        | ']' :: cs4 =>
          let s5 := cs4.span (fun c => c == ' ')  -- "\] +"
          if s5.1.isEmpty then none else
          -- optional "(\{(?'queue'[^\x7d]+)\})?"
          let step2 : Option (String × List Char) :=
            match s5.2 with
            | '{' :: rest =>
              match rest.span (fun c => c ≠ '}') with
              | (q, '}' :: rest2) => if q.isEmpty then none else some (String.mk q, rest2)
              | _ => none
            | _ => some ("", s5.2)
          match step2 with
          | none => none
          | some (queue, cs5) =>
            let s6 := cs5.span (fun c => c == ' ')  -- " *"
            let sendStep : Bool × List Char :=      -- "(?'send'->)?"
              match s6.2 with
              | '-' :: '>' :: rest => (true, rest)
              | other => (false, other)
            let s7 := sendStep.2.span (fun c => c == ' ')  -- " *"
            let s8 := s7.2.span isWordChar          -- "(?'object'\w+)"
            if s8.1.isEmpty then none else
            match s8.2 with
            | sepc :: cs6 =>
              if sepc ≠ '#' ∧ sepc ≠ '@' then none else  -- "[#@]"
              let s9 := cs6.span Char.isDigit       -- "(?'instance'\d+)"
              if s9.1.isEmpty then none else
              match s9.2 with
              | '.' :: cs7 =>
                let s10 := cs7.span isWordChar      -- "(?'method'\w+)"
                if s10.1.isEmpty then none else
                match s10.2 with
                | '(' :: cs8 =>
                  match cs8.reverse with            -- "\((?'args'.*)\)$"
                  | ')' :: rargs =>
                    some { connection := conn, msec := digitsToNat s3.1,
                           usec := digitsToNat s4.1, queue := queue,
                           send := sendStep.1, object := String.mk s8.1,
                           instId := digitsToNat s9.1,
                           method := String.mk s10.1,
                           args := String.mk rargs.reverse }
                  | _ => none
                | _ => none
              | _ => none
            | _ => none
        | _ => none
      | _ => none
    | _ => none

/-- The per-parse `m_connectionRegistry` hash of Parser (waylanddebug.h line
173), one ObjectRegistry per connection tag. -/
structure ParserState where
  regs : List (String × ObjectRegistry)
deriving DecidableEq, Repr

/-- A fresh parser (`m_connectionRegistry = { }`). -/
def ParserState.init : ParserState := ⟨[]⟩

/-- `m_connectionRegistry.contains` / read access. -/
def ParserState.lookup (st : ParserState) (conn : String) : Option ObjectRegistry :=
  (st.regs.find? (fun e => e.1 == conn)).map (·.2)

/-- `m_connectionRegistry[conn]`: the registry of a connection
(default-constructed when absent, as QHash::operator[] does). -/
def ParserState.getReg (st : ParserState) (conn : String) : ObjectRegistry :=
  (st.lookup conn).getD ObjectRegistry.empty

/-- Store the (possibly updated) registry of a connection back into the
hash. -/
def ParserState.setReg (st : ParserState) (conn : String) (r : ObjectRegistry) : ParserState :=
  if (st.regs.find? (fun e => e.1 == conn)).isSome
  then ⟨st.regs.map (fun e => if e.1 == conn then (e.1, r) else e)⟩
  else ⟨(conn, r) :: st.regs⟩

/-- Lines 421-422 of waylanddebug.cpp: on the first line of a connection tag,
seed its registry with `create("wl_display", 1)` before anything else touches
it. -/
def seedIfNew (st : ParserState) (conn : String) : Except RegErr ParserState :=
  if (st.lookup conn).isSome then .ok st
  else match ObjectRegistry.empty.create "wl_display" 1 with
    | .ok (_, r) => .ok (st.setReg conn r)
    | .error e => .error e

/-- The registry state produced by seeding a fresh connection:
one live wl_display#1 handle of generation 1. -/
def seededReg : ObjectRegistry := ⟨[⟨"wl_display", 1, 1⟩], [(("wl_display", 1), 1)], []⟩

/-- The wl_registry-bind special case (waylanddebug.cpp lines 439-447): when
the enclosing call is `wl_registry.bind` with exactly 4 arguments and the
parsed class is the literal `[unknown]`, the real class name is the second
argument with its surrounding quotes stripped (`mid(1).chopped(1)`). -/
def bindClassFix (actorClass method : String) (argumentsList : List String) (class_ : String) : String :=
  if actorClass = "wl_registry" ∧ method = "bind" ∧ argumentsList.length = 4 ∧ class_ = "[unknown]" then
    match argumentsList.get? 1 with
    | some a => String.mk ((a.toList.drop 1).dropLast)
    | none => class_   -- unreachable: argumentsList has 4 elements
  else class_

/-- The `new id` argument loop of `Parser::parseLine` (waylanddebug.cpp lines
430-455): for each argument starting with the 7-character marker `"new id "`,
locate the separator (`@`, else `#`), cut out class name and instance id,
apply the registry-bind fix, silently destroy a live server-side id
(>= 0xff000000) first, then `create` and append the handle to `m_created`. -/
def processCreates (actorClass method : String) (argumentsList : List String) :
    ObjectRegistry → List String → Except RegErr (ObjectRegistry × List ObjectRef)
  | reg, [] => .ok (reg, [])
  | reg, arg :: rest =>
    if strStartsWith arg "new id " then
      let pOpt := match arg.toList.findIdx? (fun ch => ch == '@') with
                  | some p => some p
                  | none => arg.toList.findIdx? (fun ch => ch == '#')
      match pOpt with
      | some p =>
        if p > 0 then
          let class0 := String.mk ((arg.toList.drop 7).take (p - 7))
          let instN := qToUInt (String.mk (arg.toList.drop (p + 1)))
          let class1 := bindClassFix actorClass method argumentsList class0
          let reg1 := if instN ≥ 0xff000000 then (reg.destroyIfExists instN).2 else reg
          match reg1.create class1 instN with
          | .error e => .error e
          | .ok (o, reg2) =>
            match processCreates actorClass method argumentsList reg2 rest with
            | .error e => .error e
            | .ok (reg3, os) => .ok (reg3, o :: os)
        else
          processCreates actorClass method argumentsList reg rest
      | none => processCreates actorClass method argumentsList reg rest
    else processCreates actorClass method argumentsList reg rest

/-- The body of `Parser::parseLine` that runs once the pattern has matched
(waylanddebug.cpp lines 419-461): seed a fresh connection, resolve the actor,
process `new id` arguments, process `delete_id`, and assemble the Message.
Factored out of `parseLine` so that properties of a successful parse can be
proved by cases on its registry calls. -/
def parseMatched (st : ParserState) (c : Captures) : Except RegErr (Option Message × ParserState) :=
  match seedIfNew st c.connection with
  | .error e => .error e
  | .ok st1 =>
    match (st1.getReg c.connection).resolve c.object c.instId with
    | .error e => .error e
    | .ok actor =>
      match processCreates actor.m_class c.method (splitArgs c.args)
          (st1.getReg c.connection) (splitArgs c.args) with
      | .error e => .error e
      | .ok (reg1, created) =>
        if c.method = "delete_id" ∧ (splitArgs c.args).length = 1 then
          if qToUInt (((splitArgs c.args).head?).getD "") ≠ 0 then
            match reg1.destroy (qToUInt (((splitArgs c.args).head?).getD "")) with
            | .error e => .error e
            | .ok (o, reg2) =>
              .ok (some { m_direction := if c.send then .ToCompositor else .FromCompositor,
                          m_connection := c.connection, m_queue := c.queue,
                          m_time := c.msec * 1000 + c.usec, m_object := actor,
                          m_method := c.method, m_arguments := splitArgs c.args,
                          m_created := created, m_destroyed := [o] },
                     st1.setReg c.connection reg2)
          else
            .ok (some { m_direction := if c.send then .ToCompositor else .FromCompositor,
                        m_connection := c.connection, m_queue := c.queue,
                        m_time := c.msec * 1000 + c.usec, m_object := actor,
                        m_method := c.method, m_arguments := splitArgs c.args,
                        m_created := created, m_destroyed := [] },
                   st1.setReg c.connection reg1)
        else
          .ok (some { m_direction := if c.send then .ToCompositor else .FromCompositor,
                      m_connection := c.connection, m_queue := c.queue,
                      m_time := c.msec * 1000 + c.usec, m_object := actor,
                      m_method := c.method, m_arguments := splitArgs c.args,
                      m_created := created, m_destroyed := [] },
                 st1.setReg c.connection reg1)

/-- `Parser::parseLine` (waylanddebug.cpp lines 406-462). Returns
`.ok (none, st)` for a non-candidate or non-matching line (C++ returns
nullptr), `.ok (some msg, st)` for a parsed message, `.error e` when a
registry operation throws. The `match.lastCapturedIndex() != 11` test of line
416 always passes on a successful match (group 11, `args`, always
participates), so it adds no extra case. -/
def parseLine (st : ParserState) (line : String) : Except RegErr (Option Message × ParserState) :=
  if (strStartsWith line "<" || strStartsWith line "[") && strEndsWith line ")" then
    match parseCaptures line with
    | none => .ok (none, st)
    | some c => parseMatched st c
  else
    .ok (none, st)

/-- The example input line of the spec's end-to-end property. -/
def exLine : String := "[1.500000] wl_display@1.sync(new id wl_callback@5)"

/-- Captures produced by the pattern on `exLine`. -/
def exCaptures : Captures :=
  { connection := "", msec := 1, usec := 500000, queue := "", send := false,
    object := "wl_display", instId := 1, method := "sync",
    args := "new id wl_callback@5" }

/-- The message `Parser::parseLine` builds from `exLine` (note the time:
`1 * 1000 + 500000`). -/
def exMsg : Message :=
  { m_direction := .FromCompositor, m_connection := "", m_queue := "",
    m_time := 501000, m_object := ⟨"wl_display", 1, 1⟩, m_method := "sync",
    m_arguments := ["new id wl_callback@5"],
    m_created := [⟨"wl_callback", 5, 1⟩], m_destroyed := [] }

/-- The parser state after processing `exLine` from a fresh parser. -/
def exState : ParserState :=
  ⟨[("", ⟨[⟨"wl_display", 1, 1⟩, ⟨"wl_callback", 5, 1⟩],
          [(("wl_callback", 5), 1), (("wl_display", 1), 1)], []⟩)]⟩

/-- One registry API call, for stating properties of call sequences against a
single IdentityTable. -/
inductive RegOp where
  | create (class_ : String) (inst : Nat)
  | destroy (inst : Nat)
  | destroyIfExists (inst : Nat)
deriving DecidableEq, Repr

/-- Apply one operation to a registry, keeping only the state (an `Exception`
aborts the whole parse, so sequences below are chains of successful calls;
`resolve` is read-only and therefore omitted). -/
def applyOp (r : ObjectRegistry) : RegOp → Except RegErr ObjectRegistry
  | .create c i => (r.create c i).map (·.2)
  | .destroy i => (r.destroy i).map (·.2)
  | .destroyIfExists i => .ok (r.destroyIfExists i).2

/-- Run a sequence of registry operations, stopping at the first failure. -/
def runOps (r : ObjectRegistry) : List RegOp → Except RegErr ObjectRegistry
  | [] => .ok r
  | op :: ops =>
    match applyOp r op with
    | .ok r2 => runOps r2 ops
    | .error e => .error e

/-! Helper lemmas about the registry primitives. -/

theorem takeFirstInstance_eq_none_iff (i : Nat) (l : List ObjectRef) :
    takeFirstInstance i l = none ↔ ∀ o ∈ l, o.m_instance ≠ i := by
  induction l with
  | nil => simp [takeFirstInstance]
  | cons o rest ih =>
    simp only [takeFirstInstance]
    by_cases h : o.m_instance = i
    · simp [h]
    · cases htfi : takeFirstInstance i rest with
      | none =>
        simp only [beq_iff_eq, h, if_false, List.mem_cons]
        constructor
        · rintro - o2 (rfl | h2)
          · exact h
          · exact ih.mp htfi o2 h2
        · intro _; trivial
      | some pr =>
        simp only [beq_iff_eq, h, if_false, List.mem_cons]
        constructor
        · intro hcon; cases hcon
        · intro hall
          exact absurd (ih.mpr (fun o2 h2 => hall o2 (Or.inr h2))) (by simp [htfi])

theorem takeFirstInstance_erase (i : Nat) (l : List ObjectRef) :
    (match takeFirstInstance i l with
     | some x => x.2
     | none => l) = l.eraseP (fun o => o.m_instance == i) := by
  induction l with
  | nil => simp [takeFirstInstance]
  | cons o rest ih =>
    simp only [takeFirstInstance]
    by_cases h : o.m_instance = i
    · simp [List.eraseP_cons, h]
    · cases htfi : takeFirstInstance i rest with
      | none =>
        have := ih
        rw [htfi] at this
        simp [List.eraseP_cons, h, ← this]
      | some pr =>
        have := ih
        rw [htfi] at this
        simp [List.eraseP_cons, h, ← this]

theorem takeFirstInstance_of_mem {i : Nat} {l : List ObjectRef} {h : ObjectRef}
    (hnd : (l.map ObjectRef.m_instance).Nodup) (hmem : h ∈ l) (hi : h.m_instance = i) :
    ∃ rest, takeFirstInstance i l = some (h, rest) ∧ ∀ o ∈ rest, o.m_instance ≠ i := by
  induction l with
  | nil => cases hmem
  | cons o l2 ih =>
    rw [List.map_cons, List.nodup_cons] at hnd
    rcases List.mem_cons.mp hmem with rfl | hmem2
    · refine ⟨l2, by simp [takeFirstInstance, hi], ?_⟩
      intro o2 ho2 hcon
      exact hnd.1 (List.mem_map.mpr ⟨o2, ho2, by rw [hcon, hi]⟩)
    · have hoi : o.m_instance ≠ i := by
        intro hcon
        exact hnd.1 (List.mem_map.mpr ⟨h, hmem2, by rw [hi, hcon]⟩)
      obtain ⟨rest, heq, hall⟩ := ih hnd.2 hmem2
      refine ⟨o :: rest, ?_, ?_⟩
      · simp [takeFirstInstance, hoi, heq]
      · intro o2 ho2
        rcases List.mem_cons.mp ho2 with rfl | h2
        · exact hoi
        · exact hall o2 h2

/-- Claim C2 counterexample: on a registry whose only live object is
wl_surface#3, `destroyIfExists(3)` leaves the graveyard empty, whereas
`destroy(3)` appends the handle to the graveyard — so `destroyIfExists` does
NOT have the same effect on the table as `destroy` on a live instance. -/
theorem C2_cex :
    ((ObjectRegistry.mk [⟨"wl_surface", 3, 1⟩] [(("wl_surface", 3), 1)] []).destroyIfExists 3).2.m_graveyard = []
    ∧ (ObjectRegistry.mk [⟨"wl_surface", 3, 1⟩] [(("wl_surface", 3), 1)] []).destroy 3
        = .ok (⟨"wl_surface", 3, 1⟩, ⟨[], [(("wl_surface", 3), 1)], [⟨"wl_surface", 3, 1⟩]⟩)
    ∧ ((ObjectRegistry.mk [⟨"wl_surface", 3, 1⟩] [(("wl_surface", 3), 1)] []).destroyIfExists 3).2
        ≠ ⟨[], [(("wl_surface", 3), 1)], [⟨"wl_surface", 3, 1⟩]⟩ := by
  refine ⟨rfl, rfl, ?_⟩
  decide

/-- Claim C2 (amended): `destroyIfExists(instanceId)` removes the first live
handle with that instance id from the live set but does not touch the
graveyard or the generation counters; when the instance is not live it
changes nothing and reports no error (it is total). -/
theorem C2_destroyIfExists_effect (r : ObjectRegistry) (i : Nat) :
    ((r.destroyIfExists i).2.m_objects = r.m_objects.eraseP (fun o => o.m_instance == i)
      ∧ (r.destroyIfExists i).2.m_graveyard = r.m_graveyard
      ∧ (r.destroyIfExists i).2.m_generations = r.m_generations)
    ∧ (r.findInstance i = none → r.destroyIfExists i = (ObjectRef.null, r)) := by
  have herase := takeFirstInstance_erase i r.m_objects
  constructor
  · unfold ObjectRegistry.destroyIfExists
    cases htfi : takeFirstInstance i r.m_objects with
    | none =>
      rw [htfi] at herase
      exact ⟨herase, rfl, rfl⟩
    | some pr =>
      rw [htfi] at herase
      exact ⟨herase, rfl, rfl⟩
  · intro hfind
    have hall : ∀ o ∈ r.m_objects, o.m_instance ≠ i := by
      intro o ho
      have := List.findIdx?_eq_none_iff.mp hfind o ho
      simpa using this
    unfold ObjectRegistry.destroyIfExists
    rw [(takeFirstInstance_eq_none_iff i r.m_objects).mpr hall]

/-- Witness for C2's amended theorem at a concrete registry with no live
instance 3. -/
theorem C2_destroyIfExists_effect_witness :
    (ObjectRegistry.empty.destroyIfExists 3).2.m_graveyard = ObjectRegistry.empty.m_graveyard
    ∧ ObjectRegistry.empty.destroyIfExists 3 = (ObjectRef.null, ObjectRegistry.empty) :=
  ⟨(C2_destroyIfExists_effect ObjectRegistry.empty 3).1.2.1,
   (C2_destroyIfExists_effect ObjectRegistry.empty 3).2 rfl⟩

/-- Claim C6: on a well-formed table (live instance ids pairwise distinct, as
`create`'s duplicate check guarantees for every reachable state) in which
instance `i` is live with handle `h` of non-empty class, `destroy i` removes
exactly `h` and appends it to the graveyard, after which the live lookup for
`i` fails and `resolve (h.m_class) i` succeeds via the graveyard, returning
the very handle `h` — in particular with the same generation. -/
theorem C6_destroy_then_resolve (r : ObjectRegistry) (h : ObjectRef) (i : Nat)
    (hnd : (r.m_objects.map ObjectRef.m_instance).Nodup)
    (hmem : h ∈ r.m_objects) (hi : h.m_instance = i) (hc : h.m_class ≠ "") :
    ∃ rest, r.destroy i = .ok (h, { r with m_objects := rest, m_graveyard := r.m_graveyard ++ [h] })
      ∧ (rest.find? (fun o => o.m_instance == i) = none)
      ∧ (ObjectRegistry.mk rest r.m_generations (r.m_graveyard ++ [h])).resolve h.m_class i
          = .ok h := by
  obtain ⟨rest, htfi, hall⟩ := takeFirstInstance_of_mem hnd hmem hi
  have hfind : rest.find? (fun o => o.m_instance == i) = none :=
    List.find?_eq_none.mpr (fun o ho => by simpa using hall o ho)
  refine ⟨rest, ?_, hfind, ?_⟩
  · unfold ObjectRegistry.destroy
    rw [htfi]
  · unfold ObjectRegistry.resolve
    simp only [hfind]
    rw [if_pos hc]
    have hrev : (r.m_graveyard ++ [h]).reverse = h :: r.m_graveyard.reverse := by simp
    simp only [hrev, List.find?_cons, hi, beq_self_eq_true, Bool.and_self, if_pos]

/-- Witness for C6 at the seeded registry with its live wl_display#1. -/
theorem C6_destroy_then_resolve_witness :
    ∃ rest, seededReg.destroy 1 = .ok (⟨"wl_display", 1, 1⟩,
        { seededReg with m_objects := rest,
                         m_graveyard := seededReg.m_graveyard ++ [⟨"wl_display", 1, 1⟩] })
      ∧ (rest.find? (fun o => o.m_instance == 1) = none)
      ∧ (ObjectRegistry.mk rest seededReg.m_generations
           (seededReg.m_graveyard ++ [⟨"wl_display", 1, 1⟩])).resolve "wl_display" 1
          = .ok ⟨"wl_display", 1, 1⟩ :=
  C6_destroy_then_resolve seededReg ⟨"wl_display", 1, 1⟩ 1 (by decide) (by decide) rfl (by decide)

/-! Generation-counter lemmas for C5. -/

theorem find?_setGen (gens : List ((String × Nat) × Nat)) (c : String) (i v : Nat)
    (c2 : String) (i2 : Nat) :
    (setGen gens c i v).find? (fun e => e.1.1 == c2 && e.1.2 == i2)
      = (gens.find? (fun e => e.1.1 == c2 && e.1.2 == i2)).map
          (fun e => if e.1.1 == c && e.1.2 == i then (e.1, v) else e) := by
  unfold setGen
  rw [List.find?_map]
  have hpf : ((fun e => e.1.1 == c2 && e.1.2 == i2)
        ∘ fun (e : (String × Nat) × Nat) => if e.1.1 == c && e.1.2 == i then (e.1, v) else e)
      = (fun e => e.1.1 == c2 && e.1.2 == i2) := by
    funext e
    by_cases he : (e.1.1 == c && e.1.2 == i) = true
    · simp [Function.comp, he]
    · simp [Function.comp, he]
  rw [hpf]

theorem destroyIfExists_generations (r : ObjectRegistry) (i : Nat) :
    ((r.destroyIfExists i).2).m_generations = r.m_generations := by
  unfold ObjectRegistry.destroyIfExists
  cases takeFirstInstance i r.m_objects with
  | none => rfl
  | some pr => rfl

theorem destroy_generations (r : ObjectRegistry) (i : Nat) (o : ObjectRef)
    (r2 : ObjectRegistry) (h : r.destroy i = .ok (o, r2)) :
    r2.m_generations = r.m_generations := by
  unfold ObjectRegistry.destroy at h
  cases htfi : takeFirstInstance i r.m_objects with
  | none => rw [htfi] at h; cases h
  | some pr =>
    rw [htfi] at h
    cases h
    rfl

theorem lookupGen_setGen_self (gens : List ((String × Nat) × Nat)) (c : String) (i v : Nat)
    (hsome : (gens.find? (fun e => e.1.1 == c && e.1.2 == i)).isSome = true) :
    ((setGen gens c i v).find? (fun e => e.1.1 == c && e.1.2 == i)).map (·.2) = some v := by
  rw [find?_setGen]
  cases hf : gens.find? (fun e => e.1.1 == c && e.1.2 == i) with
  | none => rw [hf] at hsome; cases hsome
  | some e =>
    have hpe0 := List.find?_some hf
    have hpe : (e.1.1 == c && e.1.2 == i) = true := hpe0
    have hpe1 : e.1.1 = c ∧ e.1.2 = i := by simpa [Bool.and_eq_true, beq_iff_eq] using hpe
    simp [hpe1]

theorem create_gen (r : ObjectRegistry) (c : String) (i : Nat)
    (hlive : r.m_objects.find? (fun o => o.m_instance == i) = none) :
    ∃ r2, r.create c i = .ok (⟨c, i, (r.lookupGen c i).getD 0 + 1⟩, r2)
      ∧ r2.lookupGen c i = some ((r.lookupGen c i).getD 0 + 1) := by
  cases hg : r.lookupGen c i with
  | none =>
    refine ⟨⟨r.m_objects ++ [⟨c, i, 1⟩], ((c, i), 1) :: r.m_generations, r.m_graveyard⟩, ?_, ?_⟩
    · simp [ObjectRegistry.create, hlive, hg]
    · simp [ObjectRegistry.lookupGen, List.find?_cons, hg]
  | some g =>
    have hsome : (r.m_generations.find? (fun e => e.1.1 == c && e.1.2 == i)).isSome = true := by
      unfold ObjectRegistry.lookupGen at hg
      cases hf : r.m_generations.find? (fun e => e.1.1 == c && e.1.2 == i) with
      | none => rw [hf] at hg; cases hg
      | some e => simp
    refine ⟨⟨r.m_objects ++ [⟨c, i, g + 1⟩], setGen r.m_generations c i (g + 1), r.m_graveyard⟩,
      ?_, ?_⟩
    · simp [ObjectRegistry.create, hlive, hg]
    · have hself := lookupGen_setGen_self r.m_generations c i (g + 1) hsome
      simpa [ObjectRegistry.lookupGen] using hself

theorem lookupGen_cons_mono (gens : List ((String × Nat) × Nat)) (c : String) (i : Nat)
    (hnone : gens.find? (fun e => e.1.1 == c && e.1.2 == i) = none)
    (c2 : String) (i2 : Nat) :
    ((gens.find? (fun e => e.1.1 == c2 && e.1.2 == i2)).map (·.2)).getD 0
      ≤ (((((c, i), 1) :: gens).find? (fun e => e.1.1 == c2 && e.1.2 == i2)).map (·.2)).getD 0 := by
  by_cases hk : c = c2 ∧ i = i2
  · obtain ⟨rfl, rfl⟩ := hk
    rw [hnone]
    simp
  · have hb : ¬((fun (e : (String × Nat) × Nat) => e.1.1 == c2 && e.1.2 == i2) ((c, i), 1) = true) := by
      simpa [Bool.and_eq_true, beq_iff_eq] using hk
    rw [List.find?_cons_of_neg gens hb]

theorem lookupGen_setGen_mono (gens : List ((String × Nat) × Nat)) (c : String) (i : Nat)
    (g v : Nat)
    (hv : (gens.find? (fun e => e.1.1 == c && e.1.2 == i)).map (·.2) = some g)
    (hgv : g ≤ v) (c2 : String) (i2 : Nat) :
    ((gens.find? (fun e => e.1.1 == c2 && e.1.2 == i2)).map (·.2)).getD 0
      ≤ (((setGen gens c i v).find? (fun e => e.1.1 == c2 && e.1.2 == i2)).map (·.2)).getD 0 := by
  rw [find?_setGen]
  cases hf2 : gens.find? (fun e => e.1.1 == c2 && e.1.2 == i2) with
  | none => simp
  | some e =>
    have hp20 := List.find?_some hf2
    have hp2 : (e.1.1 == c2 && e.1.2 == i2) = true := hp20
    simp only [Bool.and_eq_true, beq_iff_eq] at hp2
    by_cases hpe : (e.1.1 == c && e.1.2 == i) = true
    · have hpe2 : e.1.1 = c ∧ e.1.2 = i := by
        simpa [Bool.and_eq_true, beq_iff_eq] using hpe
      have hcc : c2 = c := hp2.1.symm.trans hpe2.1
      have hii : i2 = i := hp2.2.symm.trans hpe2.2
      subst hcc
      subst hii
      rw [hf2] at hv
      have he2 : e.2 = g := by injection hv
      simp only [Option.map_some', Option.getD_some]
      rw [if_pos hpe]
      simpa [he2] using hgv
    · simp only [Option.map_some', Option.getD_some]
      rw [if_neg hpe]

theorem create_counter_mono (r : ObjectRegistry) (c : String) (i : Nat) (o : ObjectRef)
    (r2 : ObjectRegistry) (hc : r.create c i = .ok (o, r2)) (c2 : String) (i2 : Nat) :
    (r.lookupGen c2 i2).getD 0 ≤ (r2.lookupGen c2 i2).getD 0 := by
  unfold ObjectRegistry.create at hc
  cases hlive : r.m_objects.find? (fun o => o.m_instance == i) with
  | some o2 => rw [hlive] at hc; cases hc
  | none =>
    rw [hlive] at hc
    cases hg : r.lookupGen c i with
    | none =>
      rw [hg] at hc
      cases hc
      have hnone : r.m_generations.find? (fun e => e.1.1 == c && e.1.2 == i) = none := by
        unfold ObjectRegistry.lookupGen at hg
        cases hf : r.m_generations.find? (fun e => e.1.1 == c && e.1.2 == i) with
        | none => rfl
        | some e => rw [hf] at hg; cases hg
      simpa [ObjectRegistry.lookupGen] using lookupGen_cons_mono r.m_generations c i hnone c2 i2
    | some g =>
      rw [hg] at hc
      cases hc
      have hv : (r.m_generations.find? (fun e => e.1.1 == c && e.1.2 == i)).map (·.2) = some g := hg
      simpa [ObjectRegistry.lookupGen] using
        lookupGen_setGen_mono r.m_generations c i g (g + 1) hv (Nat.le_succ g) c2 i2

theorem applyOp_counter_mono (r : ObjectRegistry) (op : RegOp) (r2 : ObjectRegistry)
    (h : applyOp r op = .ok r2) (c2 : String) (i2 : Nat) :
    (r.lookupGen c2 i2).getD 0 ≤ (r2.lookupGen c2 i2).getD 0 := by
  cases op with
  | create c i =>
    simp only [applyOp] at h
    cases hc : r.create c i with
    | error e => rw [hc] at h; cases h
    | ok pr =>
      rw [hc] at h
      simp only [Except.map] at h
      cases h
      exact create_counter_mono r c i pr.1 pr.2 hc c2 i2
  | destroy i =>
    simp only [applyOp] at h
    cases hd : r.destroy i with
    | error e => rw [hd] at h; cases h
    | ok pr =>
      rw [hd] at h
      simp only [Except.map] at h
      cases h
      simp [ObjectRegistry.lookupGen, destroy_generations r i pr.1 pr.2 hd]
  | destroyIfExists i =>
    simp only [applyOp] at h
    cases h
    simp [ObjectRegistry.lookupGen, destroyIfExists_generations]

theorem runOps_counter_mono (ops : List RegOp) (r r2 : ObjectRegistry)
    (hrun : runOps r ops = .ok r2) (c2 : String) (i2 : Nat) :
    (r.lookupGen c2 i2).getD 0 ≤ (r2.lookupGen c2 i2).getD 0 := by
  induction ops generalizing r with
  | nil =>
    unfold runOps at hrun
    cases hrun
    exact le_refl _
  | cons op ops ih =>
    unfold runOps at hrun
    cases hop : applyOp r op with
    | error e => rw [hop] at hrun; cases hrun
    | ok rmid =>
      rw [hop] at hrun
      exact le_trans (applyOp_counter_mono r op rmid hop c2 i2) (ih rmid hrun)

/-- Claim C5: the generation `create` assigns to a `(className, instanceId)`
pair is `previous counter + 1` — i.e. 1 on first creation (counter absent)
and exactly one more on each later re-creation — and the stored counter
equals the assigned generation afterwards; across any successful sequence of
create / destroy / destroyIfExists calls the per-pair counter never
decreases, and destruction never touches it (no reset). -/
theorem C5_generation_counter (r : ObjectRegistry) (c : String) (i : Nat)
    (hlive : r.m_objects.find? (fun o => o.m_instance == i) = none) :
    (∃ r2, r.create c i = .ok (⟨c, i, (r.lookupGen c i).getD 0 + 1⟩, r2)
        ∧ r2.lookupGen c i = some ((r.lookupGen c i).getD 0 + 1))
    ∧ (∀ ops r3 r4, runOps r3 ops = .ok r4 → ∀ c2 i2,
        (r3.lookupGen c2 i2).getD 0 ≤ (r4.lookupGen c2 i2).getD 0)
    ∧ (∀ r3 i2, ((ObjectRegistry.destroyIfExists r3 i2).2).m_generations = r3.m_generations)
    ∧ (∀ r3 i2 o r4, ObjectRegistry.destroy r3 i2 = .ok (o, r4) →
        r4.m_generations = r3.m_generations) :=
  ⟨create_gen r c i hlive,
   fun ops r3 r4 hrun c2 i2 => runOps_counter_mono ops r3 r4 hrun c2 i2,
   fun r3 i2 => destroyIfExists_generations r3 i2,
   fun r3 i2 o r4 hd => destroy_generations r3 i2 o r4 hd⟩

/-- Witness for C5 at the empty registry: first creation of wl_surface#3
yields generation 1. -/
theorem C5_generation_counter_witness :
    ∃ r2, ObjectRegistry.empty.create "wl_surface" 3
        = .ok (⟨"wl_surface", 3, (ObjectRegistry.empty.lookupGen "wl_surface" 3).getD 0 + 1⟩, r2)
      ∧ r2.lookupGen "wl_surface" 3
          = some ((ObjectRegistry.empty.lookupGen "wl_surface" 3).getD 0 + 1) :=
  (C5_generation_counter ObjectRegistry.empty "wl_surface" 3 rfl).1

set_option maxHeartbeats 1600000 in
/-- `Filter::match` agrees with the spec-side AND-of-ORs predicate. -/
theorem filterMatch_iff_specMatch :
    ∀ (f : Filter) (m : Message), (f.matchMsg m = true) ↔ specMatch f m := by
    intro f m
    unfold Filter.matchMsg specMatch
    split_ifs with h1 h2 h3 h4 h5 h6 h7 h8 h9 h10
    · refine iff_of_false (by simp) ?_
      rintro ⟨p1, -⟩
      exact h1.2 (p1 h1.1).symm
    · refine iff_of_false (by simp) ?_
      rintro ⟨-, p2, p3, -⟩
      rcases h2.2 with ⟨hne, hlt⟩ | ⟨hne, hgt⟩
      · exact absurd (p2 hne) (by omega)
      · exact absurd (p3 hne) (by omega)
    · refine iff_of_false (by simp) ?_
      rintro ⟨-, -, -, p4, -⟩
      exact h3.2 (p4 h3.1)
    · refine iff_of_false (by simp) ?_
      rintro ⟨-, -, -, -, p5, -⟩
      exact h4.2 (p5 h4.1)
    · refine iff_of_false (by simp) ?_
      rintro ⟨-, -, -, -, -, p6, -⟩
      exact h5.2 (p6 h5.1)
    · refine iff_of_false (by simp) ?_
      rintro ⟨-, -, -, -, -, -, p7, -⟩
      exact h6.2 (p7 h6.1)
    · refine iff_of_false (by simp) ?_
      rintro ⟨-, -, -, -, -, -, -, p8, -⟩
      exact h7.2 (p8 h7.1)
    · refine iff_of_false (by simp) ?_
      rintro ⟨-, -, -, -, -, -, -, -, p9, -⟩
      exact h8.2 (p9 h8.1)
    · refine iff_of_false (by simp) ?_
      rintro ⟨-, -, -, -, -, -, -, -, -, p10, -⟩
      exact h9.2 (p10 h9.1)
    · refine iff_of_false (by simp) ?_
      rintro ⟨-, -, -, -, -, -, -, -, -, -, p11⟩
      exact h10.2 (p11 h10.1)
    · refine iff_of_true rfl ⟨?_, ?_, ?_, ?_, ?_, ?_, ?_, ?_, ?_, ?_, ?_⟩
      · intro hd
        by_contra hx
        exact h1 ⟨hd, fun he => hx he.symm⟩
      · intro hne
        by_contra hx
        exact h2 ⟨Or.inl hne, Or.inl ⟨hne, by omega⟩⟩
      · intro hne
        by_contra hx
        exact h2 ⟨Or.inr hne, Or.inr ⟨hne, by omega⟩⟩
      · intro hne
        by_contra hx
        exact h3 ⟨hne, hx⟩
      · intro hne
        by_contra hx
        exact h4 ⟨hne, hx⟩
      · intro hne
        by_contra hx
        exact h5 ⟨hne, hx⟩
      · intro hne
        by_contra hx
        exact h6 ⟨hne, hx⟩
      · intro hne
        by_contra hx
        exact h7 ⟨hne, hx⟩
      · intro hne
        by_contra hx
        exact h8 ⟨hne, hx⟩
      · intro hne
        by_contra hx
        exact h9 ⟨hne, hx⟩
      · intro hne
        by_contra hx
        exact h10 ⟨hne, hx⟩

/-- An all-empty filter (per `Filter::isEmpty`) matches every message. -/
theorem filterMatch_of_isEmpty :
    ∀ (f : Filter) (m : Message), f.isEmptyF = true → f.matchMsg m = true := by
  intro f m hEmpty
  rw [filterMatch_iff_specMatch]
  unfold Filter.isEmptyF at hEmpty
  simp only [Bool.and_eq_true, decide_eq_true_eq, beq_iff_eq,
    List.isEmpty_eq_true] at hEmpty
  obtain ⟨⟨⟨⟨⟨⟨⟨⟨⟨⟨hdm, htmin⟩, htmax⟩, hconn⟩, hque⟩, hcls⟩, hinst⟩, hmeth⟩,
    harg⟩, hcre⟩, hdes⟩ := hEmpty
  refine ⟨?_, fun hne => absurd htmin hne, fun hne => absurd htmax hne,
    fun hne => absurd hconn hne, fun hne => absurd hque hne,
    fun hne => absurd hcls hne, fun hne => absurd hinst hne,
    fun hne => absurd hmeth hne, fun hne => absurd harg hne,
    fun hne => absurd hcre hne, fun hne => absurd hdes hne⟩
  intro hd
  rw [hdm] at hd
  rcases hd with h | h <;> cases h

/-- Claim C7: `Filter::match` holds iff the message satisfies every non-empty
criterion of the filter (matching any one listed value within a criterion),
so the all-empty filter matches every message; the time-range conjuncts of
`specMatch` are independent implications, so `timeMin` set without `timeMax`
imposes no upper bound and vice versa, with 0 disabling only its own side. -/
theorem C7_filter_semantics :
    (∀ (f : Filter) (m : Message), (f.matchMsg m = true) ↔ specMatch f m)
    ∧ (∀ (f : Filter) (m : Message), f.isEmptyF = true → f.matchMsg m = true) :=
  ⟨filterMatch_iff_specMatch, filterMatch_of_isEmpty⟩

/-- Witness for C7's empty-filter implication at a concrete filter and
message. -/
theorem C7_filter_semantics_witness :
    Filter.emptyFilter.matchMsg (msgWithArgs ["x"]) = true :=
  C7_filter_semantics.2 Filter.emptyFilter (msgWithArgs ["x"]) rfl

/-- Claim C4 counterexample: with argument criterion `{"shm"}` and an event
whose single argument is `"wl_shm_pool@3"` (which contains `"shm"` as a
substring, witnessed by the explicit decomposition), `Filter::match` rejects
the event — the criterion is exact string membership, not substring. -/
theorem C4_cex :
    (Filter.onlyArguments ["shm"]).matchMsg (msgWithArgs ["wl_shm_pool@3"]) = false
    ∧ "wl_shm_pool@3" = "wl_" ++ "shm" ++ "_pool@3" := by
  constructor
  · rfl
  · rfl

/-- Claim C4 (amended): for a non-empty argument criterion (and no other
criterion set), the event matches iff at least one of its own arguments is
EQUAL to one of the listed strings (exact whole-string membership, not
substring containment). -/
theorem C4_argument_criterion (S : List String) (args : List String) (hS : S ≠ []) :
    (Filter.onlyArguments S).matchMsg (msgWithArgs args) = true
      ↔ ∃ a ∈ args, a ∈ S := by
  rw [filterMatch_iff_specMatch]
  unfold specMatch Filter.onlyArguments msgWithArgs
  simp only []
  constructor
  · intro hP
    exact hP.2.2.2.2.2.2.2.2.1 hS
  · intro hex
    refine ⟨?_, ?_, ?_, ?_, ?_, ?_, ?_, ?_, ?_, ?_, ?_⟩ <;>
      first
        | (intro hne; cases hne rfl)
        | (rintro (h | h) <;> cases h)
        | (intro _; exact hex)

/-- Witness for C4's amended theorem at a concrete non-empty criterion. -/
theorem C4_argument_criterion_witness :
    ((Filter.onlyArguments ["a"]).matchMsg (msgWithArgs ["a", "b"]) = true
      ↔ ∃ a ∈ ["a", "b"], a ∈ ["a"]) :=
  C4_argument_criterion ["a"] ["a", "b"] (by simp)

/-- Claim C3 (supporting theorem for the std::sort bug): the full guarantee
`std::sort` gives for `Model::sort`'s comparator — a permutation of the input
ordered under the comparator — also admits an output in which two key-equal
messages appear in the opposite of their input order; the code therefore does
not ensure the claimed stable tie-breaking (that needs std::stable_sort). -/
theorem C3_unstable_output_admitted :
    IsCppSortResult (msgLt (fun _ => 0) Column.Time false)
      [msgWithArgs ["a"], msgWithArgs ["b"]]
      [msgWithArgs ["b"], msgWithArgs ["a"]]
    ∧ msgWithArgs ["a"] ≠ msgWithArgs ["b"] := by
  refine ⟨⟨List.Perm.swap _ _ _, ?_⟩, by decide⟩
  decide

/-- Claim C8: re-sorting an already-filtered view keeps exactly the old
visible messages. Hypotheses model the program state: the message store is
duplicate-free (distinct heap objects), the old visible list is
duplicate-free and drawn from the store, and the new sorted list is some
permutation of the store (all that std::sort guarantees). Then the refiltered
list is a permutation of the old visible list — same cardinality, same
membership. -/
theorem C8_sort_preserves_filtered (msgs sorted_ oldF : List Message)
    (hperm : sorted_.Perm msgs) (hnd : msgs.Nodup) (hndF : oldF.Nodup)
    (hsub : ∀ x ∈ oldF, x ∈ msgs) :
    (sortRefilter sorted_ oldF).Perm oldF
    ∧ (sortRefilter sorted_ oldF).length = oldF.length
    ∧ (∀ x, x ∈ sortRefilter sorted_ oldF ↔ x ∈ oldF) := by
  have hndS : sorted_.Nodup := hperm.nodup_iff.mpr hnd
  have hmem : ∀ x, x ∈ sortRefilter sorted_ oldF ↔ x ∈ oldF := by
    intro x
    unfold sortRefilter
    simp only [List.mem_filter, decide_eq_true_eq]
    constructor
    · rintro ⟨-, hx⟩
      exact hx
    · intro hx
      exact ⟨hperm.mem_iff.mpr (hsub x hx), hx⟩
  have hp : (sortRefilter sorted_ oldF).Perm oldF := by
    unfold sortRefilter
    rw [List.perm_ext_iff_of_nodup (List.Nodup.filter _ hndS) hndF]
    exact fun x => hmem x
  exact ⟨hp, hp.length_eq, hmem⟩

/-- Witness for C8 on a concrete two-message store with a one-message filtered
view and the swapped sort order. -/
theorem C8_sort_preserves_filtered_witness :
    (sortRefilter [msgWithArgs ["b"], msgWithArgs ["a"]] [msgWithArgs ["b"]]).Perm
      [msgWithArgs ["b"]] :=
  (C8_sort_preserves_filtered [msgWithArgs ["a"], msgWithArgs ["b"]]
    [msgWithArgs ["b"], msgWithArgs ["a"]] [msgWithArgs ["b"]]
    (List.Perm.swap _ _ _) (by decide) (by decide) (by decide)).1

/-! Time-delta lemmas for C9. -/

theorem deltaGo_eq_zipWith (l : List Message) : ∀ x : Message,
    deltaGo (x.m_time : Int) l
      = List.zipWith (fun a b => ((b.m_time : Int) - (a.m_time : Int))) (x :: l) l := by
  induction l with
  | nil => intro x; rfl
  | cons y ys ih =>
    intro x
    simp only [deltaGo, List.zipWith_cons_cons]
    rw [ih y]

theorem recalcDeltas_eq (m : Message) (rest : List Message) :
    recalcDeltas (m :: rest)
      = 0 :: List.zipWith (fun a b => ((b.m_time : Int) - (a.m_time : Int))) (m :: rest) rest := by
  show deltaGo (m.m_time : Int) (m :: rest) = _
  simp only [deltaGo]
  rw [deltaGo_eq_zipWith rest m]
  simp

theorem recalcDeltas_length (v : List Message) : (recalcDeltas v).length = v.length := by
  cases v with
  | nil => rfl
  | cons m rest =>
    rw [recalcDeltas_eq]
    simp

theorem sortedAbs_length (v : List Message) : (sortedAbs v).length = v.length := by
  unfold sortedAbs
  rw [(List.perm_insertionSort _ _).length_eq]
  simp [recalcDeltas_length]

theorem cppsort_abs_map (l l2 : List Int) (h : IsCppSortResult absLtInt l l2) :
    l2.map Int.natAbs = (l.map Int.natAbs).insertionSort (· ≤ ·) := by
  have hperm : (l2.map Int.natAbs).Perm (l.map Int.natAbs) := h.1.map _
  have hsorted : (l2.map Int.natAbs).Sorted (· ≤ ·) := by
    refine List.pairwise_map.mpr (h.2.imp ?_)
    intro a b hab
    have hnlt : ¬ (b.natAbs < a.natAbs) := by simpa [absLtInt] using hab
    omega
  exact List.eq_of_perm_of_sorted
    (hperm.trans (List.perm_insertionSort _ _).symm) hsorted
    (List.sorted_insertionSort _ _)

theorem getD_map_natAbs (l : List Int) (n : Nat) :
    (l.map Int.natAbs).getD n 0 = (l.getD n 0).natAbs := by
  rw [List.getD_eq_getD_get?, List.getD_eq_getD_get?, List.get?_map]
  cases l.get? n with
  | none => rfl
  | some a => rfl

/-- Claim C9: `recalculateTimeDelta` assigns delta 0 to row 0 and the signed
difference of consecutive timestamps to every later row (the zipWith pairs
row i-1 with row i); every admissible result of the `std::sort`-by-absolute-
value copy has `|tdcopy[size/2]|` equal to the rank-(size/2) order statistic
of the absolute deltas; and for an even size 2k that rank k is the upper of
the two middle ranks k-1 and k (an element, never an average). -/
theorem C9_time_deltas :
    (∀ (m : Message) (rest : List Message),
        recalcDeltas (m :: rest)
          = 0 :: List.zipWith (fun a b => ((b.m_time : Int) - (a.m_time : Int))) (m :: rest) rest)
    ∧ (∀ (v : List Message) (tdcopy : List Int),
        IsCppSortResult absLtInt (recalcDeltas v) tdcopy →
          tdcopy.map Int.natAbs = sortedAbs v
          ∧ (tdcopy.getD (v.length / 2) 0).natAbs = (sortedAbs v).getD (v.length / 2) 0)
    ∧ (∀ (v : List Message) (k : Nat), v.length = 2 * k → 1 ≤ k →
        (sortedAbs v).getD (k - 1) 0 ≤ (sortedAbs v).getD k 0) := by
  refine ⟨recalcDeltas_eq, ?_, ?_⟩
  · intro v tdcopy h
    have hmap : tdcopy.map Int.natAbs = sortedAbs v := cppsort_abs_map _ _ h
    refine ⟨hmap, ?_⟩
    rw [← hmap, getD_map_natAbs]
  · intro v k hlen hk
    have hlen2 : (sortedAbs v).length = 2 * k := by rw [sortedAbs_length, hlen]
    have hk1 : k - 1 < (sortedAbs v).length := by omega
    have hk2 : k < (sortedAbs v).length := by omega
    rw [List.getD_eq_get _ _ hk1, List.getD_eq_get _ _ hk2]
    exact List.Sorted.rel_get_of_lt (List.sorted_insertionSort _ _)
      (by simpa [Fin.lt_def] using by omega)

/-- Witness for C9: a one-row view (median = |0| at rank 0) and a two-row
view for the even-size middle-rank comparison. -/
theorem C9_time_deltas_witness :
    (([(0 : Int)].map Int.natAbs = sortedAbs [msgWithArgs ["a"]]
      ∧ (([(0 : Int)]).getD ([msgWithArgs ["a"]].length / 2) 0).natAbs
          = (sortedAbs [msgWithArgs ["a"]]).getD ([msgWithArgs ["a"]].length / 2) 0)
    ∧ (sortedAbs [msgWithArgs ["a"], msgWithArgs ["b"]]).getD 0 0
        ≤ (sortedAbs [msgWithArgs ["a"], msgWithArgs ["b"]]).getD 1 0) :=
  ⟨C9_time_deltas.2.1 [msgWithArgs ["a"]] [0] ⟨by decide, by decide⟩,
   C9_time_deltas.2.2 [msgWithArgs ["a"], msgWithArgs ["b"]] 1 (by decide) (by decide)⟩

/-! Parser lemmas for C10 and C1. -/

theorem lookup_setReg_self (st : ParserState) (conn : String) (r : ObjectRegistry) :
    (st.setReg conn r).lookup conn = some r := by
  unfold ParserState.setReg ParserState.lookup
  by_cases hs : (st.regs.find? (fun e => e.1 == conn)).isSome = true
  · rw [if_pos hs]
    have hpf : ((fun (e : String × ObjectRegistry) => e.1 == conn)
          ∘ fun (e : String × ObjectRegistry) => if e.1 == conn then (e.1, r) else e)
        = (fun e => e.1 == conn) := by
      funext e
      by_cases he : (e.1 == conn) = true
      · simp [Function.comp, he]
      · simp [Function.comp, he]
    rw [List.find?_map, hpf]
    cases hf : st.regs.find? (fun e => e.1 == conn) with
    | none => rw [hf] at hs; cases hs
    | some e =>
      have hpe0 := List.find?_some hf
      have hpe : (e.1 == conn) = true := hpe0
      have hpe1 : e.1 = conn := by simpa using hpe
      simp [hpe1]
  · rw [if_neg hs]
    simp [List.find?_cons]

/-- Claim C10: for every connection tag (the empty one included) that is not
yet in the parser's per-connection registry map, the seeding step of
`parseLine` installs a fresh registry containing exactly the live handle
wl_display#1 with generation 1 — before the line's actor is resolved — and on
that registry `resolve("wl_display", 1)` succeeds without any creating log
line. -/
theorem C10_implicit_wl_display_seed (st : ParserState) (conn : String)
    (hfresh : st.lookup conn = none) :
    seedIfNew st conn = .ok (st.setReg conn seededReg)
    ∧ (st.setReg conn seededReg).getReg conn = seededReg
    ∧ seededReg.resolve "wl_display" 1 = .ok ⟨"wl_display", 1, 1⟩
    ∧ seededReg.m_objects = [⟨"wl_display", 1, 1⟩] := by
  refine ⟨?_, ?_, rfl, rfl⟩
  · rw [seedIfNew, hfresh]
    rfl
  · unfold ParserState.getReg
    rw [lookup_setReg_self]
    rfl

/-- Witness for C10 at a fresh parser and the empty connection tag. -/
theorem C10_implicit_wl_display_seed_witness :
    seedIfNew ParserState.init "" = .ok (ParserState.init.setReg "" seededReg)
    ∧ (ParserState.init.setReg "" seededReg).getReg "" = seededReg
    ∧ seededReg.resolve "wl_display" 1 = .ok ⟨"wl_display", 1, 1⟩
    ∧ seededReg.m_objects = [⟨"wl_display", 1, 1⟩] :=
  C10_implicit_wl_display_seed ParserState.init "" rfl

theorem parseMatched_time (st : ParserState) (c : Captures) (m : Message)
    (st2 : ParserState) (hok : parseMatched st c = .ok (some m, st2)) :
    m.m_time = c.msec * 1000 + c.usec := by
  unfold parseMatched at hok
  cases hseed : seedIfNew st c.connection with
  | error e => rw [hseed] at hok; simp only [] at hok; cases hok
  | ok st1 =>
    rw [hseed] at hok
    simp only [] at hok
    cases hres : (st1.getReg c.connection).resolve c.object c.instId with
    | error e => rw [hres] at hok; simp only [] at hok; cases hok
    | ok actor =>
      rw [hres] at hok
      simp only [] at hok
      cases hpc : processCreates actor.m_class c.method (splitArgs c.args)
          (st1.getReg c.connection) (splitArgs c.args) with
      | error e => rw [hpc] at hok; simp only [] at hok; cases hok
      | ok pr =>
        rw [hpc] at hok
        simp only [] at hok
        by_cases hdel : (c.method = "delete_id" ∧ (splitArgs c.args).length = 1)
        · rw [if_pos hdel] at hok
          by_cases hid : qToUInt (((splitArgs c.args).head?).getD "") ≠ 0
          · rw [if_pos hid] at hok
            cases hdes : pr.1.destroy (qToUInt (((splitArgs c.args).head?).getD "")) with
            | error e => rw [hdes] at hok; simp only [] at hok; cases hok
            | ok pr2 =>
              rw [hdes] at hok
              simp only [] at hok
              cases hok
              rfl
          · rw [if_neg hid] at hok
            cases hok
            rfl
        · rw [if_neg hdel] at hok
          cases hok
          rfl

/-- Claim C1 counterexample: the spec's example line
`[1.500000] wl_display@1.sync(new id wl_callback@5)` parses successfully, but
its event timestamp is 501000 (= 1*1000 + 500000), not the claimed 1500000
(= 1*1000000 + 500000): the code scales the first captured field by 1000,
treating it as the log's millisecond field (regex group name 'msec'). -/
theorem C1_cex :
    parseLine ParserState.init exLine = .ok (some exMsg, exState)
    ∧ exMsg.m_time = 501000
    ∧ exMsg.m_time ≠ 1500000 := by
  refine ⟨?_, rfl, by decide⟩
  rfl

/-- Claim C1 (amended): for every candidate line the pattern accepts with
timestamp fields `[M.U]`, the event timestamp is `M * 1000 + U` — the first
field is the log's millisecond count and the second its microsecond remainder
used verbatim — and the example line parses to exactly `exMsg`: timestamp
501000, direction FromCompositor (the spec's FromPeer), actor
{wl_display,1,1}, method "sync", created [{wl_callback,5,1}]. -/
theorem C1_timestamp :
    (∀ (st : ParserState) (line : String) (m : Message) (st2 : ParserState) (c : Captures),
      parseLine st line = .ok (some m, st2) → parseCaptures line = some c →
        m.m_time = c.msec * 1000 + c.usec)
    ∧ parseLine ParserState.init exLine = .ok (some exMsg, exState) := by
  constructor
  · intro st line m st2 c hok hcap
    unfold parseLine at hok
    by_cases hcand : ((strStartsWith line "<" || strStartsWith line "[") && strEndsWith line ")") = true
    · rw [if_pos hcand, hcap] at hok
      exact parseMatched_time st c m st2 hok
    · rw [if_neg hcand] at hok
      cases hok
  · rfl

/-- Witness for C1's amended theorem: instantiating the general timestamp
formula on the example line gives 501000 = 1 * 1000 + 500000. -/
theorem C1_timestamp_witness : exMsg.m_time = exCaptures.msec * 1000 + exCaptures.usec :=
  C1_timestamp.1 ParserState.init exLine exMsg exState exCaptures C1_timestamp.2 rfl

end WlanAlz
